import Mathlib

/-!
Verification of the oct2py session-protocol module (`oct2py/session.py`).

The development shallowly embeds the protocol code as pure functions:
text is `List Char`, the incoming engine output is a `List Char` stream
that the scanner consumes from the front, operator input to the debug
prompt is a `List (List Char)` of lines, and an exhausted stream (the
real code would block forever waiting for more bytes) is modelled by an
`Option` result of `none`.  Loops whose Python originals are `while 1:`
reading from the stream are given an explicit fuel argument; since every
iteration consumes at least one character from the stream, a fuel of
`stream.length + 1` is always sufficient, and the top-level entry points
pass exactly that.
-/

namespace Oct2Py

/-- Characters Python's `str.rstrip()` (and `str.strip()`) remove by default. -/
def pySpace (c : Char) : Bool :=
  c = ' ' || c = '\t' || c = '\n' || c = '\r' || c = '\x0b' || c = '\x0c'

/-- Python `str.rstrip()`: drop trailing whitespace. -/
def rstrip (l : List Char) : List Char :=
  (l.reverse.dropWhile pySpace).reverse

/-- Python `str.lstrip()`: drop leading whitespace. -/
def lstrip (l : List Char) : List Char :=
  l.dropWhile pySpace

/-- Python `str.strip()`: drop whitespace on both sides. -/
def pyStrip (l : List Char) : List Char :=
  lstrip (rstrip l)

/-- Python `'\n'.join(resp)`. -/
def joinNL (ls : List (List Char)) : List Char :=
  List.intercalate (("\n").toList) ls

/-- Python `''.join(resp)`. -/
def joinAll (ls : List (List Char)) : List Char :=
  ls.flatten

/-- Encoding of a sequence of output lines as the raw character stream the
engine would produce: each line followed by a newline character. -/
def encodeLines : List (List Char) → List Char
  | [] => []
  | l :: ls => l ++ '\n' :: encodeLines ls

/-- Check from `_Session.expect` (pipe branch, session.py:637-639): does the
accumulated text end with one of the target strings?
(`for string in strings: if line.endswith(string): return line`). -/
def tailMatches (tgts : List (List Char)) (line : List Char) : Bool :=
  tgts.any (fun g => g.isSuffixOf line)

/-- Embedding of `_Session.expect` on the plain-pipe transport
(session.py:633-639): read one character at a time (`self.read()` reads a
single character), append it to the accumulator `line`, and return the
accumulator as soon as it ends with one of the targets.  A `none` result
means the stream was exhausted with no match (the real loop would block).
The result carries the returned text and the unconsumed remainder of the
stream. -/
def expectPipe (tgts : List (List Char)) : List Char → List Char → Option (List Char × List Char)
  | [], _ => none
  | c :: cs, line =>
    let line' := line ++ [c]
    if tailMatches tgts line' then some (line', cs) else expectPipe tgts cs line'

/-- Embedding of the pseudo-terminal branch of `_Session.expect`
(session.py:629-632): `line = self.proc.before + self.proc.after`, where by
the pexpect interface contract `after` is the text of the matched target. -/
def ptyExpect (before after : List Char) : List Char :=
  before ++ after

/-- End-of-response sentinel, `char(3)` in the command template
(session.py:543-545): ASCII 0x03. -/
def endMarker : Char := '\x03'

/-- Error sentinel, `char(21)` in the command template (session.py:543-546):
ASCII 0x15 (decimal 21). -/
def errMarker : Char := '\x15'

/-- Targets of the per-line `expect` call in the response read loop
(session.py:574): a newline or one of the two interactive prompts. -/
def lineTargets : List (List Char) :=
  [("\n").toList, ("debug> ").toList, ("octave> ").toList]

/-- Targets of the first `expect` call after writing the command
(session.py:560): the end marker or the text of a syntax error. -/
def firstTargets : List (List Char) :=
  [[endMarker], ("syntax error").toList]

/-- Template lines wrapped around a command by `_Session.evaluate`
(session.py:545-547): the command list is joined with newlines and framed
by `try`/`catch` with the end and error sentinels, with one trailing empty
line (so the written text terminates in a newline). -/
def templateLines (cmds : List (List Char)) : List (List Char) :=
  [("try").toList, ("disp(char(3))").toList, joinNL cmds, ("disp(char(3))").toList,
   ("catch").toList, ("disp(lasterr())").toList, ("disp(char(21))").toList,
   ("end").toList, []]

/-- The joined template text, `output = '\n'.join(lines)` (session.py:552). -/
def templateOutput (cmds : List (List Char)) : List Char :=
  joinNL (templateLines cmds)

/-- Length of the match of the regular expression
`(keyboard\(.*\);?|keyboard;?)` (session.py:553) at the head of `s`, if
any.  The first alternative needs a literal `(` after `keyboard`, then `.*`
(greedy, not crossing a newline) up to the last `)` on the line, then an
optional `;`; the second alternative is just `keyboard` plus an optional
`;`.  Python's regex engine prefers the left alternative. -/
def keyboardMatchLen (s : List Char) : Option Nat :=
  if (("keyboard(").toList).isPrefixOf s then
    let t := s.drop 9
    let lineSeg := t.takeWhile (fun c => c ≠ '\n')
    match lineSeg.reverse.findIdx? (fun c => c = ')') with
    | some i =>
      let closeIdx := lineSeg.length - 1 - i
      let base := 9 + closeIdx + 1
      some (if (t.drop (closeIdx + 1)).head? = some ';' then base + 1 else base)
    | none =>
      if (("keyboard").toList).isPrefixOf s then
        some (if (s.drop 8).head? = some ';' then 9 else 8)
      else none
  else if (("keyboard").toList).isPrefixOf s then
    some (if (s.drop 8).head? = some ';' then 9 else 8)
  else none

/-- Python `re.search(pattern, output)` for the keyboard pattern: does the
pattern match at any position? -/
def searchKeyboard : List Char → Bool
  | [] => false
  | c :: cs => (keyboardMatchLen (c :: cs)).isSome || searchKeyboard cs

/-- Python `re.sub(pattern, repl, output, count=1)`: replace the leftmost
match of the keyboard pattern. -/
def subFirstKeyboard (repl : List Char) : List Char → List Char
  | [] => []
  | c :: cs =>
    match keyboardMatchLen (c :: cs) with
    | some n => repl ++ (c :: cs).drop n
    | none => c :: subFirstKeyboard repl cs

/-- Python `re.sub(pattern, repl, output)` with fuel: replace every match
of the keyboard pattern.  Every match consumes at least eight characters,
so a fuel of the input length is always sufficient. -/
def subAllKeyboardF (repl : List Char) : Nat → List Char → List Char
  | _, [] => []
  | 0, s => s
  | fuel + 1, c :: cs =>
    match keyboardMatchLen (c :: cs) with
    | some n => repl ++ subAllKeyboardF repl fuel ((c :: cs).drop n)
    | none => c :: subAllKeyboardF repl fuel cs

/-- Python `re.sub(pattern, repl, output)` over the whole text. -/
def subAllKeyboard (repl s : List Char) : List Char :=
  subAllKeyboardF repl s.length s

/-- Name of the private interaction marker function
(`_make_interaction_file`, session.py:659-666). -/
def interactName : List Char := ("__oct2py_interact").toList

/-- Text actually written to the engine by `_Session.evaluate`
(session.py:545-559): the joined template, except that when the keyboard
pattern occurs the first match is replaced by `;__oct2py_interact;` and
any further matches by `;` before writing. -/
def writtenOutput (cmds : List (List Char)) : List Char :=
  let output := templateOutput cmds
  if searchKeyboard output then
    subAllKeyboard ((";").toList)
      (subFirstKeyboard (((";").toList) ++ interactName ++ ((";").toList)) output)
  else output

/-- Command text reported in diagnostics (session.py:548-551): the call
line of a five-fragment bundle, stripped, and otherwise the joined
command. -/
def mainLine (cmds : List (List Char)) : List Char :=
  if cmds.length = 5 then pyStrip (cmds.getD 2 []) else joinNL cmds

/-- Python exception kinds raised or swallowed by the session code. -/
inductive PyErr where
  | ioError
  | osError
  | attributeError
  | oct2pyError (msg : List Char)
deriving DecidableEq

/-- Result of one call to `_Session.evaluate`: a normal string result, a
bare `return` (Python `None`, from an aborted debug interaction), or a
raised `Oct2PyError` with its message. -/
inductive Outcome where
  | ok (text : List Char)
  | retNone
  | raised (msg : List Char)
deriving DecidableEq

/-- State of a `_Session`: whether the pexpect pseudo-terminal transport is
available (the module-level `spawn`), whether the platform is Windows
(`os.name == 'nt'`), and the process handle (`self.proc`, `none` once
closed). -/
structure SessSt where
  hasSpawn : Bool
  osIsNT : Bool
  proc : Option Unit
deriving DecidableEq

/-- State effect of `_Session.close` (session.py:725): the handle is
cleared. -/
def closedState (st : SessSt) : SessSt :=
  { st with proc := none }

/-- State of a fresh `_Session` as built by `restart`/`start`
(session.py:469-476, 486-489): a live process handle. -/
def newSession (hasSpawn osIsNT : Bool) : SessSt :=
  ⟨hasSpawn, osIsNT, some ()⟩

/-- Result of `self.write('exit\n')` inside `close` (session.py:718): an
`AttributeError` when the handle is already cleared, otherwise at the mercy
of the pipe (`ioFail` models a broken pipe). -/
def writeExitResult (st : SessSt) (ioFail : Bool) : Except PyErr Unit :=
  match st.proc with
  | none => .error .attributeError
  | some _ => if ioFail then .error .ioError else .ok ()

/-- Result of `self.proc.terminate()` inside `close` (session.py:722). -/
def terminateResult (st : SessSt) (osFail : Bool) : Except PyErr Unit :=
  match st.proc with
  | none => .error .attributeError
  | some _ => if osFail then .error .osError else .ok ()

/-- Python `try: ... except (E1, E2): pass` around a unit-valued action. -/
def pyTry (e : Except PyErr Unit) (handled : PyErr → Bool) : Except PyErr Unit :=
  match e with
  | .ok _ => .ok ()
  | .error ex => if handled ex then .ok () else .error ex

/-- Exceptions swallowed around the graceful-exit write
(`except (IOError, AttributeError)`, session.py:719). -/
def closeWriteHandled : PyErr → Bool
  | .ioError => true
  | .attributeError => true
  | _ => false

/-- Exceptions swallowed around the terminate call
(`except (OSError, AttributeError)`, session.py:723). -/
def closeTermHandled : PyErr → Bool
  | .osError => true
  | .attributeError => true
  | _ => false

/-- Embedding of `_Session.close` (session.py:714-725): best-effort
graceful `exit` write, best-effort terminate, then clear the handle. -/
def sessionClose (st : SessSt) (ioFail osFail : Bool) : Except PyErr SessSt :=
  match pyTry (writeExitResult st ioFail) closeWriteHandled with
  | .error e => .error e
  | .ok _ =>
    match pyTry (terminateResult st osFail) closeTermHandled with
    | .error e => .error e
    | .ok _ => .ok (closedState st)

/-- State of an `Oct2Py` object: its `_session` attribute.  The MAT
reader/writer helpers are external collaborators and are not modelled. -/
structure OctSt where
  session : Option SessSt
deriving DecidableEq

/-- Embedding of `Oct2Py.close` (session.py:61-68): close the low-level
session if there is one, then drop it (the temp-file removal of the
reader/writer helpers is outside the protocol). -/
def octClose (o : OctSt) (ioFail osFail : Bool) : Except PyErr OctSt :=
  match o.session with
  | some s =>
    match sessionClose s ioFail osFail with
    | .error e => .error e
    | .ok _ => .ok ⟨none⟩
  | none => .ok ⟨none⟩

/-- Diagnostic message of the plain-pipe branch of `handle_syntax_error`
(session.py:610-612): the engine's error text plus a session-closed
notice. -/
def pipeSyntaxMsg (resp : List Char) : List Char :=
  ("Octave Syntax Error:\n").toList ++ resp ++ ("\nSession Closed by Octave").toList

/-- Message fragment `Oct2Py tried to run:` with the opening quote fence. -/
def triedPre : List Char := ("Oct2Py tried to run:\n\"\"\"\n").toList

/-- Closing fence plus `Octave returned Syntax Error` (session.py:616-617). -/
def syntaxSuffix : List Char := ("\n\"\"\"\nOctave returned Syntax Error").toList

/-- Closing fence plus `Octave returned:` (session.py:578-579, 620-621). -/
def returnedMid : List Char := ("\n\"\"\"\nOctave returned:\n").toList

/-- Embedding of `_Session.handle_syntax_error` (session.py:608-622).  On
the plain-pipe transport the session closes itself and the message carries
the engine's error text; on the pseudo-terminal transport the message
carries the attempted command.  The `resp[-1] == '>>> catch'` test compares
the final character of `resp` with a nine-character string, so it is never
true for a nonempty `resp` (and every caller passes a nonempty one); it is
kept for faithfulness. -/
def handleSyntaxError (st : SessSt) (resp mainL : List Char) : Outcome × SessSt :=
  if st.hasSpawn = false then
    (.raised (pipeSyntaxMsg resp), closedState st)
  else if resp.drop (resp.length - 1) = (">>> catch").toList then
    (.raised (triedPre ++ mainL ++ syntaxSuffix), st)
  else
    (.raised (triedPre ++ mainL ++ returnedMid ++ resp), st)

/-- Message of the unexpected-termination diagnostic raised when the error
marker is read (session.py:578-580): the attempted command and all lines
collected so far. -/
def termMsg (mainL : List Char) (resp : List (List Char)) : List Char :=
  triedPre ++ mainL ++ returnedMid ++ joinNL resp

/-- Message raised by `_interact` on a transport without interactive
support (session.py:700-701). -/
def noPexpectMsg : List Char :=
  ("Please install pexpect for interaction capability").toList

/-- Embedding of the `_Session._interact` loop (session.py:702-712): read
one line of operator input, rewrite a bare `exit` to `return`, transmit it
prefixed by `disp(char(3));`, and either finish (`dbcont`/`return` give
`true`, `dbquit` gives `false`) or consume the engine's feedback up to the
next prompt and wait for more input.  The result carries the continue flag,
the unread operator input, the unread stream, and the transmitted texts;
`none` models blocking on exhausted operator input or stream. -/
def interactLoop (prompt : List Char) :
    List (List Char) → List Char → Option (Bool × List (List Char) × List Char × List (List Char))
  | [], _ => none
  | l :: rest, stream =>
    let inp0 := l ++ ("\n").toList
    let inp := if inp0 = ("exit\n").toList then ("return\n").toList else inp0
    let w := ("disp(char(3));").toList ++ inp
    if inp = ("dbcont\n").toList ∨ inp = ("return\n").toList then some (true, rest, stream, [w])
    else if inp = ("dbquit\n").toList then some (false, rest, stream, [w])
    else
      match expectPipe [("\x03\r\n").toList] stream [] with
      | none => none
      | some fs =>
        match expectPipe [prompt] fs.2 [] with
        | none => none
        | some ps =>
          match interactLoop prompt rest ps.2 with
          | none => none
          | some r => some (r.1, r.2.1, r.2.2.1, w :: r.2.2.2)

/-- Embedding of `while not '^' in resp: resp += self.expect('\n')`
(session.py:562-563), with fuel; each iteration consumes at least one
stream character, so `stream.length + 1` fuel is always enough. -/
def readUntilCaret : Nat → List Char → List Char → Option (List Char × List Char)
  | fuel, resp, stream =>
    if '^' ∈ resp then some (resp, stream)
    else
      match fuel with
      | 0 => none
      | fuel + 1 =>
        match expectPipe [("\n").toList] stream [] with
        | none => none
        | some ts => readUntilCaret fuel (resp ++ ts.1) ts.2

/-- Message raised by `evaluate` on a cleared handle (session.py:541-542). -/
def sessionClosedMsg : List Char := ("Session Closed, try a restart()").toList

/-- Embedding of the response read loop of `_Session.evaluate`
(session.py:571-606), with fuel.  Each iteration reads one line (or prompt)
from the stream, so every iteration consumes at least one character and a
fuel of `stream.length + 1` is always sufficient.  The four cases of the
loop body: the end marker ends the loop successfully; the error marker
raises the unexpected-termination diagnostic; a prompt line hands off to
the debug bridge (with `resp` truncated by four lines and one resync line
consumed on return, continuing on success and returning `None` on abort);
any other line updates the mid-stream syntax-error detector and is
appended unless it is an empty line before any output. -/
def evalLoopF (st : SessSt) (mainL : List Char) :
    Nat → List (List Char) → List Char → List (List Char) → Bool → Option (Outcome × SessSt)
  | 0, _, _, _, _ => none
  | fuel + 1, opIn, stream, resp, sErr =>
    match expectPipe lineTargets stream [] with
    | none => none
    | some rs =>
      let line := rstrip rs.1
      let s1 := rs.2
      if line = [endMarker] then some (.ok (joinNL resp), st)
      else if line = [errMarker] then some (.raised (termMsg mainL resp), st)
      else if line = ("debug>").toList ∨ line = ("octave>").toList then
        if st.osIsNT = false ∧ st.hasSpawn = false then
          some (.raised noPexpectMsg, st)
        else
          match interactLoop (line ++ (" ").toList) opIn s1 with
          | none => none
          | some ir =>
            match expectPipe [("\n").toList] ir.2.2.1 [] with
            | none => none
            | some ns =>
              if ir.1 then
                evalLoopF st mainL fuel ir.2.1 ns.2 (resp.take (resp.length - 4)) sErr
              else some (.retNone, st)
      else if ("syntax error").toList <:+: line then
        evalLoopF st mainL fuel opIn s1
          (if resp = [] ∧ line = [] then resp else resp ++ [line]) true
      else if sErr ∧ '^' ∈ line then
        some (handleSyntaxError st (joinAll (resp ++ [line])) mainL)
      else
        evalLoopF st mainL fuel opIn s1
          (if resp = [] ∧ line = [] then resp else resp ++ [line]) sErr

/-- Embedding of `_Session.evaluate` (session.py:538-606).  The command
text `writtenOutput cmds` is written to the transport (session.py:559);
`stream` is the engine's response and `opIn` the operator's input lines
for a possible debug interaction.  A cleared handle raises immediately;
otherwise the first expect waits for the end marker or a syntax error,
the syntax-error path accumulates up to the caret line and classifies,
and the normal path runs the read loop. -/
def evaluate (st : SessSt) (cmds : List (List Char)) (stream : List Char)
    (opIn : List (List Char)) : Option (Outcome × SessSt) :=
  match st.proc with
  | none => some (.raised sessionClosedMsg, st)
  | some _ =>
    match expectPipe firstTargets stream [] with
    | none => none
    | some rs =>
      if (("syntax error").toList).isSuffixOf rs.1 then
        match readUntilCaret (rs.2.length + 1) rs.1 rs.2 with
        | none => none
        | some cr => some (handleSyntaxError st cr.1 (mainLine cmds))
      else
        evalLoopF st (mainLine cmds) (rs.2.length + 1) opIn rs.2 [] false

/-- Message raised by `Oct2Py._eval` on a dropped session
(session.py:352-353). -/
def noSessionMsg : List Char := ("No Octave Session").toList

/-- Embedding of `Oct2Py._eval` (session.py:327-360): raise when the
session was dropped by `close`, otherwise delegate to the low-level
`evaluate` (logging is a side channel and is not modelled). -/
def octEval (o : OctSt) (cmds : List (List Char)) (stream : List Char)
    (opIn : List (List Char)) : Option (Outcome × OctSt) :=
  match o.session with
  | none => some (.raised noSessionMsg, o)
  | some s =>
    match evaluate s cmds stream opIn with
    | none => none
    | some r => some (r.1, ⟨some r.2⟩)

/-- Observable effects of a successful `Oct2Py.put` after the name check
(session.py:263-264): marshal the values to the data file, then send the
load command to the engine.  Their internals belong to the external
(de)serialization layer. -/
inductive PutEvent where
  | createFile
  | evalCmd
deriving DecidableEq

/-- Python `name.startswith('_')`. -/
def startsWithUnderscore (n : List Char) : Bool :=
  match n with
  | '_' :: _ => true
  | _ => false

/-- Message of the invalid-name diagnostic (session.py:262). -/
def invalidNameMsg (n : List Char) : List Char :=
  ("Invalid name ").toList ++ n

/-- Embedding of the name-check loop of `Oct2Py.put` (session.py:260-262):
raise at the first name starting with an underscore. -/
def checkNames : List (List Char) → Except PyErr Unit
  | [] => .ok ()
  | n :: rest =>
    if startsWithUnderscore n then .error (.oct2pyError (invalidNameMsg n))
    else checkNames rest

/-- Embedding of `Oct2Py.put` for a list of names (session.py:257-264):
the whole name check runs before the marshalling write and the engine
command; an error therefore produces no effect. -/
def put (names : List (List Char)) : Except PyErr (List PutEvent) :=
  match checkNames names with
  | .error e => .error e
  | .ok _ => .ok [.createFile, .evalCmd]

/-- A string `names` argument is wrapped into a one-element list
(session.py:257-259). -/
def putStr (name : List Char) : Except PyErr (List PutEvent) :=
  put [name]

/-- Accumulation discipline of the read loop (`if resp or line:
resp.append(line)`, session.py:602-603), folded over a list of lines. -/
def collect (resp : List (List Char)) : List (List Char) → List (List Char)
  | [] => resp
  | l :: ls => collect (if resp = [] ∧ l = [] then resp else resp ++ [l]) ls

/-- Conditions on a raw response line under which the read loop simply
accumulates it: the line text reaches the scanner whole (no embedded
newline or prompt target), and once stripped it is neither sentinel, nor a
prompt, nor syntax-error text. -/
def goodLine (l : List Char) : Prop :=
  '\n' ∉ l ∧ ¬(("debug> ").toList <:+: l) ∧ ¬(("octave> ").toList <:+: l) ∧
    rstrip l ≠ [endMarker] ∧ rstrip l ≠ [errMarker] ∧
    rstrip l ≠ ("debug>").toList ∧ rstrip l ≠ ("octave>").toList ∧
    ¬(("syntax error").toList <:+: rstrip l)

instance goodLineDecidable (l : List Char) : Decidable (goodLine l) := by
  unfold goodLine
  infer_instance

/-- Relation between the boolean tail check and the suffix predicate. -/
theorem tailMatches_iff (tgts : List (List Char)) (line : List Char) :
    tailMatches tgts line = true ↔ ∃ g ∈ tgts, g <:+ line := by
  simp [tailMatches]

/-- Soundness of the pipe expect loop: a successful return consumed a
nonempty prefix of the stream, the returned text ends with one of the
targets, and no earlier read position already ended with a target. -/
theorem expectPipe_sound (tgts : List (List Char)) :
    ∀ (s acc t rest : List Char), expectPipe tgts s acc = some (t, rest) →
      ∃ u, u ≠ [] ∧ t = acc ++ u ∧ u ++ rest = s ∧
        tailMatches tgts t = true ∧
        ∀ k, acc.length < k → k < t.length → tailMatches tgts (t.take k) = false := by
  intro s
  induction s with
  | nil => intro acc t rest h; simp [expectPipe] at h
  | cons c cs ih =>
    intro acc t rest h
    rw [expectPipe] at h
    by_cases hm : tailMatches tgts (acc ++ [c]) = true
    · rw [if_pos hm] at h
      simp only [Option.some.injEq, Prod.mk.injEq] at h
      obtain ⟨ht, hrest⟩ := h
      refine ⟨[c], by simp, ht.symm, by simp [hrest], ht ▸ hm, ?_⟩
      intro k hk1 hk2
      rw [← ht] at hk2
      simp only [List.length_append, List.length_cons, List.length_nil] at hk2
      omega
    · rw [if_neg hm] at h
      obtain ⟨u, hu, ht, hrest, hmatch, hmin⟩ := ih (acc ++ [c]) t rest h
      refine ⟨c :: u, by simp, by simp [ht], by simp [hrest], hmatch, ?_⟩
      intro k hk1 hk2
      rcases eq_or_lt_of_le (Nat.succ_le_of_lt hk1) with hk | hk
      · have htake : t.take k = acc ++ [c] := by
          rw [ht, ← hk, List.take_left' (by simp)]
        rw [htake]
        exact eq_false_of_ne_true hm
      · exact hmin k (by simpa using hk) hk2

/-- Completeness of the pipe expect loop: if a nonempty stream prefix `u`
brings the accumulator to a tail match and no earlier read position did,
the loop returns exactly `acc ++ u` with the rest of the stream unread. -/
theorem expectPipe_complete (tgts : List (List Char)) :
    ∀ (u acc rest : List Char), u ≠ [] →
      tailMatches tgts (acc ++ u) = true →
      (∀ k, acc.length < k → k < (acc ++ u).length → tailMatches tgts ((acc ++ u).take k) = false) →
      expectPipe tgts (u ++ rest) acc = some (acc ++ u, rest) := by
  intro u
  induction u with
  | nil => intro acc rest h; exact absurd rfl h
  | cons c cs ih =>
    intro acc rest _ hmatch hmin
    rw [List.cons_append, expectPipe]
    by_cases hcs : cs = []
    · subst hcs
      rw [if_pos (by simpa using hmatch)]
      simp
    · have hlen : cs.length ≠ 0 := fun h0 => hcs (List.length_eq_zero.mp h0)
      have hnom : tailMatches tgts (acc ++ [c]) = false := by
        have hstep : (acc ++ c :: cs).take (acc.length + 1) = acc ++ [c] := by
          have hsplit : acc ++ c :: cs = (acc ++ [c]) ++ cs := by simp
          rw [hsplit, List.take_left' (by simp)]
        have := hmin (acc.length + 1) (by omega)
          (by simp only [List.length_append, List.length_cons]; omega)
        rwa [hstep] at this
      rw [if_neg (by simp [hnom])]
      have hstep2 : acc ++ c :: cs = (acc ++ [c]) ++ cs := by simp
      have hrec := ih (acc ++ [c]) rest hcs (by rw [← hstep2]; exact hmatch)
        (by intro k hk1 hk2
            rw [← hstep2]
            exact hmin k
              (by simp only [List.length_append, List.length_cons, List.length_nil] at hk1 ⊢; omega)
              (by rw [hstep2]; exact hk2))
      rw [hrec, hstep2]

/-- A tail of some `take` of a list occurs within the list. -/
theorem within_of_take {g l : List Char} {k : Nat} (h : g <:+ l.take k) : g <:+: l := by
  obtain ⟨s, hs⟩ := h
  exact ⟨s, l.drop k, by rw [hs, List.take_append_drop]⟩

/-- A list starting with `g` contains `g` within it. -/
theorem within_of_start {g l : List Char} (h : g <+: l) : g <:+: l := by
  obtain ⟨t, ht⟩ := h
  exact ⟨[], t, by simpa using ht⟩

/-- When a stream starts with a full line (no newline and no prompt string
inside it) followed by a newline, the per-line expect returns exactly that
line with its newline. -/
theorem expect_line (l rest : List Char)
    (h1 : '\n' ∉ l)
    (h2 : ¬(("debug> ").toList <:+: l))
    (h3 : ¬(("octave> ").toList <:+: l)) :
    expectPipe lineTargets (l ++ '\n' :: rest) [] = some (l ++ ['\n'], rest) := by
  have hstream : l ++ '\n' :: rest = (l ++ ['\n']) ++ rest := by simp
  rw [hstream]
  have hmin : ∀ k, ([] : List Char).length < k → k < (([] : List Char) ++ (l ++ ['\n'])).length →
      tailMatches lineTargets ((([] : List Char) ++ (l ++ ['\n'])).take k) = false := by
    intro k hk1 hk2
    simp only [List.nil_append, List.length_append, List.length_cons,
      List.length_nil, List.length] at hk2
    have hkle : k ≤ l.length := by omega
    have htake : (l ++ ['\n']).take k = l.take k := List.take_append_of_le_length hkle
    simp only [List.nil_append, htake]
    rw [← Bool.not_eq_true, tailMatches_iff]
    rintro ⟨g, hg, hsuf⟩
    have hinf : g <:+: l := within_of_take hsuf
    simp only [lineTargets, List.mem_cons, List.not_mem_nil, or_false] at hg
    rcases hg with hg | hg | hg
    · subst hg
      have : '\n' ∈ l := hinf.sublist.subset (by simp [String.toList])
      exact h1 this
    · exact h2 (hg ▸ hinf)
    · exact h3 (hg ▸ hinf)
  have key := expectPipe_complete lineTargets (l ++ ['\n']) [] rest (by simp)
    (by rw [tailMatches_iff]
        exact ⟨("\n").toList, by simp [lineTargets], by simp [String.toList]⟩)
    hmin
  simpa using key

/-- Appending a newline does not change the result of `rstrip`. -/
theorem rstrip_append_newline (l : List Char) : rstrip (l ++ ['\n']) = rstrip l := by
  simp [rstrip, List.dropWhile, pySpace]

/-- A successful keyboard-pattern match starts with the literal word
`keyboard`, so a match anywhere implies the word occurs in the text. -/
theorem searchKeyboard_finds_word :
    ∀ s : List Char, searchKeyboard s = true → ("keyboard").toList <:+: s := by
  intro s
  induction s with
  | nil => intro h; simp [searchKeyboard] at h
  | cons c cs ih =>
    intro h
    rw [searchKeyboard, Bool.or_eq_true] at h
    rcases h with h | h
    · rw [Option.isSome_iff_exists] at h
      obtain ⟨n, hn⟩ := h
      rw [keyboardMatchLen] at hn
      split at hn
      · next hpre =>
        have h9 : ("keyboard").toList <+: ("keyboard(").toList := by decide
        have hp : ("keyboard(").toList <+: c :: cs := by simpa using hpre
        exact within_of_start (h9.trans hp)
      · split at hn
        · next hpre =>
          exact within_of_start (by simpa using hpre)
        · exact absurd hn (by simp)
    · exact List.infix_cons (ih h)

/-- When the word `keyboard` does not occur, `re.search` finds nothing. -/
theorem searchKeyboard_eq_false {s : List Char}
    (h : ¬(("keyboard").toList <:+: s)) : searchKeyboard s = false := by
  by_contra hne
  exact h (searchKeyboard_finds_word s (by revert hne; cases searchKeyboard s <;> simp))

/-- C1: for every target set and stream, when `expect` returns on the
plain-pipe transport, the returned accumulated text is exactly the
consumed stream prefix, it ends with one of the targets, and at no
earlier read position did the accumulated text end with a target — so a
target occurring only in the middle of the accumulated text never causes
a return; on the pseudo-terminal transport the returned text
`before + after` likewise ends with the matched target. -/
theorem expect_tail_anchored (tgts : List (List Char)) (stream t rest : List Char)
    (h : expectPipe tgts stream [] = some (t, rest)) :
    t ++ rest = stream ∧ (∃ g ∈ tgts, g <:+ t) ∧
      (∀ k, 0 < k → k < t.length → ¬∃ g ∈ tgts, g <:+ t.take k) ∧
      ∀ before g, g ∈ tgts → g <:+ ptyExpect before g := by
  obtain ⟨u, hu, ht, hrest, hmatch, hmin⟩ := expectPipe_sound tgts stream [] t rest h
  refine ⟨by rw [ht]; simpa using hrest, (tailMatches_iff ..).mp hmatch, ?_, ?_⟩
  · intro k hk1 hk2 hex
    have hfalse := hmin k (by simpa using hk1) hk2
    rw [(tailMatches_iff ..).mpr hex] at hfalse
    exact Bool.noConfusion hfalse
  · intro before g _
    exact List.suffix_append before g

/-- C1 witness: a concrete run of the scanner with target `ab` on stream
`xab`. -/
theorem expect_tail_anchored_witness :
    ("xab").toList ++ ([] : List Char) = ("xab").toList ∧
      (∃ g ∈ [("ab").toList], g <:+ ("xab").toList) ∧
      (∀ k, 0 < k → k < (("xab").toList).length →
        ¬∃ g ∈ [("ab").toList], g <:+ (("xab").toList).take k) ∧
      ∀ before g, g ∈ [("ab").toList] → g <:+ ptyExpect before g :=
  expect_tail_anchored [("ab").toList] (("xab").toList) (("xab").toList) [] (by decide)

/-- C2 counterexample: for the command list `[keyboard]` the text written
to the engine is not the plain template — the keyboard call is rewritten
to the private interaction marker before writing. -/
theorem written_template_counterexample :
    writtenOutput [("keyboard").toList] ≠ templateOutput [("keyboard").toList] := by
  decide

/-- C2 (amended): for every command list whose wrapped text does not
contain the breakpoint keyword `keyboard`, the text written to the
engine's input is exactly the fixed template — the lines `try`,
`disp(char(3))`, the joined command, `disp(char(3))`, `catch`,
`disp(lasterr())`, `disp(char(21))`, `end` (plus the terminating
newline), where the end marker `char(3)` is the byte 0x03 and the error
marker `char(21)` is the byte 0x15. -/
theorem written_template (cmds : List (List Char))
    (h : ¬(("keyboard").toList <:+: templateOutput cmds)) :
    writtenOutput cmds =
      joinNL [("try").toList, ("disp(char(3))").toList, joinNL cmds,
        ("disp(char(3))").toList, ("catch").toList, ("disp(lasterr())").toList,
        ("disp(char(21))").toList, ("end").toList, []] ∧
      endMarker.toNat = 3 ∧ errMarker.toNat = 21 := by
  refine ⟨?_, rfl, rfl⟩
  rw [writtenOutput]
  simp only [searchKeyboard_eq_false h, if_false, Bool.false_eq_true]
  rfl

set_option maxRecDepth 8000 in
/-- C2 witness: a keyboard-free command is written as the plain template. -/
theorem written_template_witness :
    ¬(("keyboard").toList <:+: templateOutput [("x=1").toList]) ∧
      (writtenOutput [("x=1").toList] =
        joinNL [("try").toList, ("disp(char(3))").toList, joinNL [("x=1").toList],
          ("disp(char(3))").toList, ("catch").toList, ("disp(lasterr())").toList,
          ("disp(char(21))").toList, ("end").toList, []] ∧
        endMarker.toNat = 3 ∧ errMarker.toNat = 21) :=
  ⟨by decide, written_template [("x=1").toList] (by decide)⟩

/-- C4: on the plain-pipe transport, classifying a syntax error closes the
session as part of raising the diagnostic: the handler returns the raised
outcome together with a state whose process handle is cleared, every
`evaluate` on a cleared handle raises the closed-session diagnostic, and a
session built by `restart` has a live handle again. -/
theorem pipe_syntax_closes (st : SessSt) (resp mainL : List Char)
    (h : st.hasSpawn = false) :
    handleSyntaxError st resp mainL = (.raised (pipeSyntaxMsg resp), closedState st) ∧
      (closedState st).proc = none ∧
      (∀ cmds stream opIn, evaluate (closedState st) cmds stream opIn
          = some (.raised sessionClosedMsg, closedState st)) ∧
      ∀ hs nt, (newSession hs nt).proc = some () := by
  refine ⟨?_, rfl, fun cmds stream opIn => rfl, fun hs nt => rfl⟩
  rw [handleSyntaxError, if_pos h]

/-- C4 witness: a concrete plain-pipe session. -/
theorem pipe_syntax_closes_witness :
    handleSyntaxError ⟨false, false, some ()⟩ (("parse error").toList) (("1+").toList)
        = (.raised (pipeSyntaxMsg (("parse error").toList)),
            closedState ⟨false, false, some ()⟩) ∧
      (closedState ⟨false, false, some ()⟩).proc = none ∧
      (∀ cmds stream opIn, evaluate (closedState ⟨false, false, some ()⟩) cmds stream opIn
          = some (.raised sessionClosedMsg, closedState ⟨false, false, some ()⟩)) ∧
      ∀ hs nt, (newSession hs nt).proc = some () :=
  pipe_syntax_closes ⟨false, false, some ()⟩ (("parse error").toList) (("1+").toList) rfl

/-- C5 counterexample: on the plain-pipe transport the syntax-error
diagnostic does not contain the attempted command: for command `1+` and
engine text `parse error` the message is the engine text with a
session-closed notice, and `1+` does not occur in it. -/
theorem syntax_message_counterexample :
    handleSyntaxError ⟨false, false, some ()⟩ (("parse error").toList) (("1+").toList)
        = (.raised (("Octave Syntax Error:\nparse error\nSession Closed by Octave").toList),
            ⟨false, false, none⟩) ∧
      ¬(("1+").toList <:+:
          ("Octave Syntax Error:\nparse error\nSession Closed by Octave").toList) := by
  decide

/-- C5 (amended): on the pseudo-terminal transport the raised
syntax-error diagnostic's message contains the attempted command text
verbatim; on the plain-pipe transport the message instead contains the
engine's error text and a session-closed notice. -/
theorem syntax_message_contains_command (st : SessSt) (resp mainL : List Char)
    (h : st.hasSpawn = true) :
    (∃ msg, handleSyntaxError st resp mainL = (.raised msg, st) ∧ mainL <:+: msg) ∧
      ∀ st2 : SessSt, st2.hasSpawn = false →
        handleSyntaxError st2 resp mainL = (.raised (pipeSyntaxMsg resp), closedState st2) := by
  constructor
  · rw [handleSyntaxError, if_neg (by simp [h])]
    by_cases hc : resp.drop (resp.length - 1) = (">>> catch").toList
    · rw [if_pos hc]
      exact ⟨_, rfl, ⟨triedPre, syntaxSuffix, rfl⟩⟩
    · rw [if_neg hc]
      exact ⟨_, rfl, ⟨triedPre, returnedMid ++ resp, by simp⟩⟩
  · intro st2 h2
    rw [handleSyntaxError, if_pos h2]

/-- C5 witness: a concrete pseudo-terminal session. -/
theorem syntax_message_contains_command_witness :
    (∃ msg, handleSyntaxError ⟨true, false, some ()⟩ (("parse error").toList) (("1+").toList)
        = (.raised msg, ⟨true, false, some ()⟩) ∧ ("1+").toList <:+: msg) ∧
      ∀ st2 : SessSt, st2.hasSpawn = false →
        handleSyntaxError st2 (("parse error").toList) (("1+").toList)
          = (.raised (pipeSyntaxMsg (("parse error").toList)), closedState st2) :=
  syntax_message_contains_command ⟨true, false, some ()⟩
    (("parse error").toList) (("1+").toList) rfl

/-- C6: `close` is idempotent and never raises: the first close clears the
handle while swallowing write and terminate failures, and a second close
on the cleared handle (whose write and terminate raise `AttributeError`)
also completes, at both the `_Session` and the `Oct2Py` level. -/
theorem close_idempotent :
    (∀ (st : SessSt) ioFail osFail, sessionClose st ioFail osFail = .ok (closedState st) ∧
        (closedState st).proc = none ∧
        sessionClose (closedState st) ioFail osFail = .ok (closedState st)) ∧
      ∀ (o : OctSt) ioFail osFail, octClose o ioFail osFail = .ok ⟨none⟩ ∧
        octClose ⟨none⟩ ioFail osFail = .ok (⟨none⟩ : OctSt) := by
  constructor
  · intro st io os
    rcases st with ⟨hs, nt, _ | _⟩ <;> cases io <;> cases os <;> exact ⟨rfl, rfl, rfl⟩
  · intro o io os
    rcases o with ⟨_ | s⟩
    · cases io <;> cases os <;> exact ⟨rfl, rfl⟩
    · rcases s with ⟨hs, nt, _ | _⟩ <;> cases io <;> cases os <;> exact ⟨rfl, rfl⟩

/-- C7: every protocol operation on a closed session fails fast:
`Oct2Py._eval` raises the no-session diagnostic when the session was
dropped, and `_Session.evaluate` raises the closed-session diagnostic when
the process handle is cleared, in both cases without touching the
transport (the stream is not consumed). -/
theorem no_session_fails_fast :
    (∀ (o : OctSt) cmds stream opIn, o.session = none →
        octEval o cmds stream opIn = some (.raised noSessionMsg, o)) ∧
      ∀ (st : SessSt) cmds stream opIn, st.proc = none →
        evaluate st cmds stream opIn = some (.raised sessionClosedMsg, st) := by
  constructor
  · intro o cmds stream opIn h
    rcases o with ⟨s⟩
    cases h
    rfl
  · intro st cmds stream opIn h
    rcases st with ⟨hs, nt, p⟩
    cases h
    rfl

/-- Appending the same final character is injective. -/
theorem append_singleton_inj {l m : List Char} {c : Char} : l ++ [c] = m ++ [c] ↔ l = m := by
  constructor
  · intro h
    have h2 := congrArg List.reverse h
    simp only [List.reverse_append, List.reverse_cons, List.reverse_nil, List.nil_append,
      List.singleton_append, List.cons.injEq, List.reverse_inj] at h2
    exact h2.2
  · intro h
    rw [h]

/-- C8: whenever the read loop reads a line that strips to the error
marker, it aborts and raises the unexpected-termination diagnostic, whose
message embeds both the attempted command text and all output lines
collected before the marker. -/
theorem error_marker_raises (st : SessSt) (mainL : List Char) (fuel : Nat)
    (opIn : List (List Char)) (stream : List Char) (resp : List (List Char)) (sErr : Bool)
    (raw s1 : List Char)
    (h1 : expectPipe lineTargets stream [] = some (raw, s1))
    (h2 : rstrip raw = [errMarker]) :
    evalLoopF st mainL (fuel + 1) opIn stream resp sErr
        = some (.raised (termMsg mainL resp), st) ∧
      mainL <:+: termMsg mainL resp ∧ joinNL resp <:+: termMsg mainL resp := by
  refine ⟨?_, ⟨triedPre, returnedMid ++ joinNL resp, by simp [termMsg]⟩,
    ⟨triedPre ++ mainL ++ returnedMid, [], by simp [termMsg]⟩⟩
  simp only [evalLoopF, h1, h2]
  simp
  decide

/-- C8 witness: a concrete stream whose first line is the error marker. -/
theorem error_marker_raises_witness :
    evalLoopF ⟨true, false, some ()⟩ (("1+").toList) 1 [] (("\x15\n").toList)
            [("out").toList] false
        = some (.raised (termMsg (("1+").toList) [("out").toList]), ⟨true, false, some ()⟩) ∧
      ("1+").toList <:+: termMsg (("1+").toList) [("out").toList] ∧
      joinNL [("out").toList] <:+: termMsg (("1+").toList) [("out").toList] :=
  error_marker_raises ⟨true, false, some ()⟩ (("1+").toList) 0 [] (("\x15\n").toList)
    [("out").toList] false (("\x15\n").toList) [] (by decide) (by decide)

/-- C9: one step of the debug-prompt interaction loop, for every line of
operator input: `exit` is rewritten to the engine's native `return` before
transmission and ends the loop with success; `dbcont` or `return` is
transmitted and ends the loop with success; `dbquit` is transmitted and
ends the loop with abort; any other line is transmitted, the engine's
feedback and the next prompt are consumed, and the loop waits for further
operator input. -/
theorem interact_loop_steps (prompt l : List Char) (rest : List (List Char))
    (stream : List Char) :
    (l = ("exit").toList →
        interactLoop prompt (l :: rest) stream
          = some (true, rest, stream, [("disp(char(3));return\n").toList])) ∧
      (l = ("dbcont").toList ∨ l = ("return").toList →
        interactLoop prompt (l :: rest) stream
          = some (true, rest, stream, [("disp(char(3));").toList ++ l ++ ['\n']])) ∧
      (l = ("dbquit").toList →
        interactLoop prompt (l :: rest) stream
          = some (false, rest, stream, [("disp(char(3));dbquit\n").toList])) ∧
      (l ≠ ("exit").toList → l ≠ ("dbcont").toList → l ≠ ("return").toList →
          l ≠ ("dbquit").toList →
        ∀ f1 s1 f2 s2, expectPipe [("\x03\r\n").toList] stream [] = some (f1, s1) →
          expectPipe [prompt] s1 [] = some (f2, s2) →
          interactLoop prompt (l :: rest) stream
            = (interactLoop prompt rest s2).map
                (fun r => (r.1, r.2.1, r.2.2.1,
                  (("disp(char(3));").toList ++ l ++ ("\n").toList) :: r.2.2.2))) := by
  refine ⟨?_, ?_, ?_, ?_⟩
  · intro h
    subst h
    rfl
  · intro h
    rcases h with h | h <;> subst h <;> rfl
  · intro h
    subst h
    rfl
  · intro h1 h2 h3 h4 f1 s1 f2 s2 he1 he2
    have hne : ∀ m : List Char, l ≠ m → ¬(l ++ ("\n").toList = m ++ ("\n").toList) := by
      intro m hm he
      have he' : l ++ ['\n'] = m ++ ['\n'] := he
      exact hm (append_singleton_inj.mp he')
    have hx : ¬(l ++ ("\n").toList = ("exit\n").toList) := fun he =>
      hne (("exit").toList) h1 he
    have hc : ¬(l ++ ("\n").toList = ("dbcont\n").toList) := fun he =>
      hne (("dbcont").toList) h2 he
    have hr : ¬(l ++ ("\n").toList = ("return\n").toList) := fun he =>
      hne (("return").toList) h3 he
    have hq : ¬(l ++ ("\n").toList = ("dbquit\n").toList) := fun he =>
      hne (("dbquit").toList) h4 he
    simp only [interactLoop, if_neg hx, if_neg hc, if_neg hr, if_neg hq,
      or_self_iff, he1, he2]
    simp only [if_neg (by exact fun h => absurd (Or.elim h (fun x => absurd x hc)
      (fun x => absurd x hr)) id)]
    cases hrec : interactLoop prompt rest s2 <;> simp [hrec]

/-- C9 witness: a concrete `exit` line. -/
theorem interact_loop_steps_witness :
    interactLoop (("debug> ").toList) [("exit").toList] []
      = some (true, [], [], [("disp(char(3));return\n").toList]) :=
  (interact_loop_steps (("debug> ").toList) (("exit").toList) [] []).1 rfl

/-- Name-check loop of `put`: when some name starts with an underscore the
loop raises the invalid-name diagnostic for the first such name. -/
theorem checkNames_error (names : List (List Char)) :
    (∃ n ∈ names, startsWithUnderscore n = true) →
    ∃ bad ∈ names, startsWithUnderscore bad = true ∧
      checkNames names = .error (.oct2pyError (invalidNameMsg bad)) := by
  induction names with
  | nil => rintro ⟨n, hn, _⟩; simp at hn
  | cons n rest ih =>
    rintro ⟨m, hm, hsw⟩
    by_cases h : startsWithUnderscore n = true
    · exact ⟨n, by simp, h, by rw [checkNames, if_pos h]⟩
    · have hm2 : m ∈ rest := by
        rcases List.mem_cons.mp hm with he | hr
        · exact absurd (he ▸ hsw) h
        · exact hr
      obtain ⟨bad, hb1, hb2, hb3⟩ := ih ⟨m, hm2, hsw⟩
      exact ⟨bad, by simp [hb1], hb2, by rw [checkNames, if_neg h]; exact hb3⟩

/-- Name-check loop of `put`: all-valid names pass. -/
theorem checkNames_ok (names : List (List Char))
    (h : ∀ n ∈ names, startsWithUnderscore n = false) :
    checkNames names = .ok () := by
  induction names with
  | nil => rfl
  | cons n rest ih =>
    rw [checkNames, if_neg (by simp [h n (by simp)])]
    exact ih (fun m hm => h m (by simp [hm]))

/-- C10: `put` checks every name before the first write: when some name
starts with an underscore it raises the invalid-name diagnostic and
produces neither the marshalling write nor the engine command; when all
names are valid, both effects happen, in that order; and a string name is
the one-element-list case. -/
theorem put_checks_names (names : List (List Char)) :
    ((∃ n ∈ names, startsWithUnderscore n = true) →
        ∃ bad ∈ names, startsWithUnderscore bad = true ∧
          put names = .error (.oct2pyError (invalidNameMsg bad))) ∧
      ((∀ n ∈ names, startsWithUnderscore n = false) →
        put names = .ok [PutEvent.createFile, PutEvent.evalCmd]) ∧
      ∀ n, putStr n = put [n] := by
  refine ⟨?_, ?_, fun n => rfl⟩
  · intro h
    obtain ⟨bad, hb1, hb2, hb3⟩ := checkNames_error names h
    exact ⟨bad, hb1, hb2, by rw [put, hb3]⟩
  · intro h
    rw [put, checkNames_ok names h]

/-- C10 witness: the name `_x` is rejected and the names `x`, `y` pass. -/
theorem put_checks_names_witness :
    (∃ bad ∈ [("_x").toList], startsWithUnderscore bad = true ∧
        put [("_x").toList] = .error (.oct2pyError (invalidNameMsg bad))) ∧
      put [("x").toList, ("y").toList] = .ok [PutEvent.createFile, PutEvent.evalCmd] :=
  ⟨(put_checks_names [("_x").toList]).1 ⟨("_x").toList, by simp, by decide⟩,
    (put_checks_names [("x").toList, ("y").toList]).2.1 (by decide)⟩

/-- Once the accumulator is nonempty, every further line is appended. -/
theorem collect_of_ne (ls : List (List Char)) :
    ∀ resp, resp ≠ [] → collect resp ls = resp ++ ls := by
  induction ls with
  | nil => intro resp _; simp [collect]
  | cons l ls ih =>
    intro resp h
    rw [collect, if_neg (by simp [h])]
    rw [ih (resp ++ [l]) (by simp)]
    simp

/-- Starting from an empty accumulator, the loop keeps exactly the lines
from the first nonempty one on: leading empty lines are dropped, later
empty lines are kept. -/
theorem collect_nil_eq (ls : List (List Char)) :
    collect [] ls = ls.dropWhile (fun l => l.isEmpty) := by
  induction ls with
  | nil => rfl
  | cons l ls ih =>
    by_cases h : l = []
    · subst h
      rw [collect, if_pos ⟨rfl, rfl⟩, ih]
      rfl
    · rw [collect, if_neg (by simp [h])]
      rw [List.nil_append, collect_of_ne ls [l] (by simp)]
      rw [List.dropWhile_cons]
      simp [h]

/-- Each encoded line contributes at least its newline to the stream. -/
theorem length_le_encodeLines (Ls : List (List Char)) :
    Ls.length ≤ (encodeLines Ls).length := by
  induction Ls with
  | nil => simp [encodeLines]
  | cons l ls ih =>
    simp only [encodeLines, List.length_append, List.length_cons]
    omega

/-- Read-loop invariant: on a stream of good lines closed by the end
marker, the loop accumulates the stripped lines under the
`if resp or line` discipline and succeeds at the marker, for any
sufficient fuel. -/
theorem evalLoopF_collect (st : SessSt) (mainL : List Char) (opIn : List (List Char)) :
    ∀ (Ls : List (List Char)) (resp : List (List Char)) (fuel : Nat),
      Ls.length + 1 ≤ fuel + 1 →
      (∀ l ∈ Ls, goodLine l) →
      evalLoopF st mainL (fuel + 1) opIn (encodeLines Ls ++ ("\x03\n").toList) resp false
        = some (.ok (joinNL (collect resp (Ls.map rstrip))), st) := by
  intro Ls
  induction Ls with
  | nil =>
    intro resp fuel _ _
    have he : expectPipe lineTargets (("\x03\n").toList) [] = some (("\x03\n").toList, []) := by
      decide
    have hr : rstrip (("\x03\n").toList) = [endMarker] := by decide
    simp only [encodeLines, List.nil_append, evalLoopF, he, hr]
    simp [collect]
  | cons l ls ih =>
    intro resp fuel hf hg
    obtain ⟨hnl, hnd, hno, hne, hner, hnpd, hnpo, hnse⟩ := hg l (by simp)
    have hstream : encodeLines (l :: ls) ++ ("\x03\n").toList
        = l ++ '\n' :: (encodeLines ls ++ ("\x03\n").toList) := by
      simp [encodeLines]
    have hexp := expect_line l (encodeLines ls ++ ("\x03\n").toList) hnl hnd hno
    cases fuel with
    | zero => simp at hf
    | succ fuel =>
      rw [hstream]
      conv_lhs => rw [evalLoopF]
      simp only [hexp, rstrip_append_newline]
      rw [if_neg hne, if_neg hner,
        if_neg (show ¬(rstrip l = ("debug>").toList ∨ rstrip l = ("octave>").toList) from
          fun h => h.elim hnpd hnpo),
        if_neg hnse, if_neg (by simp)]
      rw [ih _ fuel (by simp only [List.length_cons] at hf; omega)
        (fun m hm => hg m (by simp [hm]))]
      rw [List.map_cons, collect]

/-- C3 counterexample: a run with an empty line between two output lines.
The loop returns `a`, the empty line, `b` joined with newlines — not just
the non-empty lines `a`, `b`: interior empty lines are preserved, so the
claim as stated fails on this input. -/
theorem evaluate_between_markers_counterexample :
    evaluate ⟨true, false, some ()⟩ [("x").toList] (("\x03\na\n\nb\n\x03\n").toList) []
        = some (.ok (("a\n\nb").toList), ⟨true, false, some ()⟩) ∧
      joinNL (([([] : List Char), ("a").toList, [], ("b").toList].map rstrip).filter
          (fun l => !l.isEmpty)) = ("a\nb").toList ∧
      ("a\n\nb").toList ≠ ("a\nb").toList := by
  refine ⟨by decide, by decide, by decide⟩

/-- C3 (amended): for every response whose first expect ends at the end
marker (not at a syntax error) and whose remaining stream is a sequence
of ordinary lines (no sentinel, no prompt, no syntax-error text) closed by
the end marker, `evaluate` returns the those lines stripped of trailing
whitespace, in the order read, joined with newlines, with the marker lines
stripped and the leading empty lines dropped (empty lines after the first
retained nonempty line are kept). -/
theorem evaluate_between_markers (st : SessSt) (cmds : List (List Char))
    (opIn : List (List Char)) (stream pre s1 : List Char) (Ls : List (List Char))
    (hproc : st.proc = some ())
    (hfirst : expectPipe firstTargets stream [] = some (pre, s1))
    (hnotsyn : (("syntax error").toList).isSuffixOf pre = false)
    (hs1 : s1 = encodeLines Ls ++ ("\x03\n").toList)
    (hlines : ∀ l ∈ Ls, goodLine l) :
    evaluate st cmds stream opIn
      = some (.ok (joinNL ((Ls.map rstrip).dropWhile (fun l => l.isEmpty))), st) := by
  rcases st with ⟨hs, nt, p⟩
  simp only at hproc
  cases hproc
  rw [evaluate]
  simp only [hfirst]
  rw [if_neg (by simp only [hnotsyn]; simp)]
  rw [hs1]
  have hcall := evalLoopF_collect ⟨hs, nt, some ()⟩ (mainLine cmds) opIn Ls []
    (encodeLines Ls ++ ("\x03\n").toList).length
    (by have := length_le_encodeLines Ls
        simp only [List.length_append]
        omega)
    hlines
  rw [hcall, collect_nil_eq]

/-- C3 witness: a concrete response with lines `a`, empty, `b`. -/
theorem evaluate_between_markers_witness :
    evaluate ⟨true, false, some ()⟩ [("x").toList] (("\x03\na\n\nb\n\x03\n").toList) []
      = some (.ok (joinNL ((([([] : List Char), ("a").toList, [], ("b").toList].map
          rstrip).dropWhile (fun l => l.isEmpty)))), ⟨true, false, some ()⟩) :=
  evaluate_between_markers ⟨true, false, some ()⟩ [("x").toList] []
    (("\x03\na\n\nb\n\x03\n").toList) [endMarker] (("\na\n\nb\n\x03\n").toList)
    [([] : List Char), ("a").toList, [], ("b").toList]
    rfl (by decide) (by decide) (by decide) (by decide)

/-- C7 witness: concrete closed states. -/
theorem no_session_fails_fast_witness :
    octEval ⟨none⟩ [] [] [] = some (.raised noSessionMsg, ⟨none⟩) ∧
      evaluate ⟨true, false, none⟩ [] [] []
        = some (.raised sessionClosedMsg, ⟨true, false, none⟩) :=
  ⟨no_session_fails_fast.1 ⟨none⟩ [] [] [] rfl,
    no_session_fails_fast.2 ⟨true, false, none⟩ [] [] [] rfl⟩

end Oct2Py
